import Mathlib

/-!
Shallow embedding of the social-profile REST backend
(routes/api/auth.js, posts.js, profile.js, users.js).

Handlers are modelled as pure functions over an explicit store.  A
mutating handler returns the resulting store paired with the JSON
response; error responses are `Except.error` carrying the HTTP status
and the message string the handler sends, exactly as written in the
source.  List edits reproduce the JavaScript `splice` / `indexOf`
semantics (including negative-index behaviour) rather than an idealised
removal.
-/

/-- An HTTP error response: status code and the `msg` string the handler
returns in its JSON body. -/
structure ErrResponse where
  status : Nat
  msg : String
deriving DecidableEq, Repr

/-- JavaScript `Array.prototype.indexOf`: index of the first occurrence,
`-1` when absent. -/
def jsIndexOf {α : Type} [BEq α] (l : List α) (x : α) : Int :=
  match l.findIdx? (fun y => y == x) with
  | some i => (i : Int)
  | none => -1

/-- JavaScript `arr.splice(i, 1)`: remove one element starting at `i`,
where a negative `i` counts from the end (clamped at 0).  `splice(-1, 1)`
on a non-empty array removes the last element; on an empty array it is a
no-op. -/
def spliceRemoveOne {α : Type} (l : List α) (i : Int) : List α :=
  let start : Nat := if i < 0 then (l.length + i).toNat else min i.toNat l.length
  l.take start ++ l.drop (start + 1)

/-- Modelled from the spec and the Mongoose library (not part of src/):
`findById` casts the path parameter to an ObjectId, a 24-character
hexadecimal string, and throws a CastError with `kind = ObjectId` when
the cast fails. -/
def isValidObjectId (s : String) : Bool :=
  s.length == 24 && s.toList.all (fun c => c.isDigit || "abcdefABCDEF".toList.contains c)

/-- One entry of `post.likes`: `{ user: <id> }` (posts.js line 140). -/
structure Like where
  user : String
deriving DecidableEq, Repr

/-- One entry of `post.comments` (posts.js lines 203-208). -/
structure Comment where
  id : String
  user : String
  name : String
  avatar : String
  text : String
deriving DecidableEq, Repr

/-- A document of the Post collection (models/Post via its use in
posts.js): author reference `user`, denormalized `name`/`avatar`, text,
likes and comments. -/
structure Post where
  id : String
  user : String
  name : String
  avatar : String
  text : String
  likes : List Like
  comments : List Comment
deriving DecidableEq, Repr

/-- `Post.findById(pid)`: `Except.error ()` models the CastError thrown
on a malformed id (caught by each handler's catch block), `.ok none` a
well-formed id matching no document, `.ok (some p)` a hit. -/
def postFindById (db : List Post) (pid : String) : Except Unit (Option Post) :=
  if isValidObjectId pid then Except.ok (db.find? (fun p => p.id == pid)) else Except.error ()

/-- `post.save()` after in-place mutation: the document with the same id
is replaced by the mutated one. -/
def savePost (db : List Post) (p : Post) : List Post :=
  db.map (fun q => if q.id == p.id then p else q)

/-- Remove the first list element satisfying the predicate (Mongoose
`findOneAndRemove` / `document.remove()` on a keyed collection). -/
def removeFirst {α : Type} (f : α → Bool) : List α → List α
  | [] => []
  | x :: xs => if f x then xs else x :: removeFirst f xs

/-- posts.js POST `/` (lines 15-43): build a post with the given text and
the requester's denormalized name/avatar; `likes` and `comments` start
empty (schema defaults), then save. -/
def createPost (db : List Post) (pid uid name avatar text : String) : List Post × Post :=
  let p : Post := { id := pid, user := uid, name := name, avatar := avatar, text := text,
                    likes := [], comments := [] }
  (db ++ [p], p)

/-- posts.js GET `/:post_id` (lines 67-85): 404 "Post not found." both when
the id fails the ObjectId cast (catch block checks `err.kind`) and when the
lookup returns null. -/
def getPost (db : List Post) (pid : String) : Except ErrResponse Post :=
  match postFindById db pid with
  | Except.error () => Except.error ⟨404, "Post not found."⟩
  | Except.ok none => Except.error ⟨404, "Post not found."⟩
  | Except.ok (some p) => Except.ok p

/-- posts.js DELETE `/:post_id` (lines 93-118).  A malformed id throws a
CastError with `kind = ObjectId`, answered 404.  A well-formed absent id
makes `post` null, so `post.user.toString()` throws a TypeError whose
`kind` is not ObjectId: the catch block answers 500 "Server error."; the
`if (!post)` 404 check sits after the ownership check and is unreachable.
A non-owner gets 401 "Not authorized"; the owner's post is removed. -/
def deletePost (db : List Post) (pid rid : String) : List Post × Except ErrResponse String :=
  match postFindById db pid with
  | Except.error () => (db, Except.error ⟨404, "Post not found."⟩)
  | Except.ok none => (db, Except.error ⟨500, "Server error."⟩)
  | Except.ok (some post) =>
    if post.user != rid then
      (db, Except.error ⟨401, "Not authorized"⟩)
    else
      (removeFirst (fun q => q.id == post.id) db, Except.ok "Post removed")

/-- posts.js PUT `/like/:post_id` (lines 126-148): reject when the filter
by the requesting user is non-empty, else unshift `{ user }` and save.
Malformed ids and null posts both fall into the catch block (500). -/
def likePost (db : List Post) (pid uid : String) : List Post × Except ErrResponse (List Like) :=
  match postFindById db pid with
  | Except.error () => (db, Except.error ⟨500, "Server error"⟩)
  | Except.ok none => (db, Except.error ⟨500, "Server error"⟩)
  | Except.ok (some post) =>
    if (post.likes.filter (fun l => l.user == uid)).length > 0 then
      (db, Except.error ⟨400, "Can\x27t like a post more than once"⟩)
    else
      let newPost : Post := { post with likes := { user := uid } :: post.likes }
      (savePost db newPost, Except.ok newPost.likes)

/-- posts.js PUT `/unlike/:post_id` (lines 156-182): reject when the
filter by the requesting user is empty, else splice out the index given
by `indexOf` over the mapped user ids, and save. -/
def unlikePost (db : List Post) (pid uid : String) : List Post × Except ErrResponse (List Like) :=
  match postFindById db pid with
  | Except.error () => (db, Except.error ⟨500, "Server error"⟩)
  | Except.ok none => (db, Except.error ⟨500, "Server error"⟩)
  | Except.ok (some post) =>
    if (post.likes.filter (fun l => l.user == uid)).length == 0 then
      (db, Except.error ⟨400, "Post has not been liked."⟩)
    else
      let removeIndex := jsIndexOf (post.likes.map Like.user) uid
      let newPost : Post := { post with likes := spliceRemoveOne post.likes removeIndex }
      (savePost db newPost, Except.ok newPost.likes)

/-- posts.js POST `/comment/:post_id` (lines 189-220): unshift the new
comment with the requester's denormalized name/avatar, then save. -/
def addComment (db : List Post) (pid cid uid name avatar text : String) :
    List Post × Except ErrResponse (List Comment) :=
  match postFindById db pid with
  | Except.error () => (db, Except.error ⟨500, "Server error."⟩)
  | Except.ok none => (db, Except.error ⟨500, "Server error."⟩)
  | Except.ok (some post) =>
    let c : Comment := { id := cid, user := uid, name := name, avatar := avatar, text := text }
    let newPost : Post := { post with comments := c :: post.comments }
    (savePost db newPost, Except.ok newPost.comments)

/-- posts.js DELETE `/comment/:post_id/:comment_id` (lines 228-259): find
the comment by its id (404 when absent), check its author against the
requester (401 on mismatch), then splice out the index computed by
`indexOf` of the requester id over the comments mapped to their AUTHOR
ids — the first comment by the requester, not necessarily the one the
comment_id identified. -/
def removeComment (db : List Post) (pid cid rid : String) :
    List Post × Except ErrResponse (List Comment) :=
  match postFindById db pid with
  | Except.error () => (db, Except.error ⟨500, "Server error"⟩)
  | Except.ok none => (db, Except.error ⟨500, "Server error"⟩)
  | Except.ok (some post) =>
    match post.comments.find? (fun c => c.id == cid) with
    | none => (db, Except.error ⟨404, "Comment does not exist."⟩)
    | some comment =>
      if comment.user != rid then
        (db, Except.error ⟨401, "Not authorized."⟩)
      else
        let removeIndex := jsIndexOf (post.comments.map Comment.user) rid
        let newPost : Post := { post with comments := spliceRemoveOne post.comments removeIndex }
        (savePost db newPost, Except.ok newPost.comments)

/-- The `social` sub-document of a Profile (models/Profile via its use in
profile.js lines 88-93). -/
structure Social where
  youtube : Option String
  twitter : Option String
  facebook : Option String
  linkedin : Option String
  instagram : Option String
deriving DecidableEq, Repr

/-- One experience entry (profile.js lines 216-224); Mongoose gives each
sub-document its own id. -/
structure ExperienceEntry where
  id : String
  title : String
  company : String
  location : Option String
  fromDate : String
  toDate : Option String
  current : Bool
  description : Option String
deriving DecidableEq, Repr

/-- One education entry (profile.js lines 300-308). -/
structure EducationEntry where
  id : String
  school : String
  degree : String
  fieldOfStudy : String
  fromDate : String
  toDate : Option String
  current : Bool
  description : Option String
deriving DecidableEq, Repr

/-- A document of the Profile collection (models/Profile via its use in
profile.js): one per owning user. -/
structure Profile where
  user : String
  company : Option String
  website : Option String
  location : Option String
  bio : Option String
  status : Option String
  githubUsername : Option String
  skills : List String
  social : Social
  experience : List ExperienceEntry
  education : List EducationEntry
deriving DecidableEq, Repr

/-- The request body of POST `/api/profile` (profile.js lines 54-67):
every field is optional at the HTTP level; `none` models an absent key. -/
structure ProfileInput where
  company : Option String
  website : Option String
  location : Option String
  bio : Option String
  status : Option String
  githubUsername : Option String
  skills : Option String
  youtube : Option String
  facebook : Option String
  twitter : Option String
  instagram : Option String
  linkedin : Option String
deriving DecidableEq, Repr

/-- JavaScript truthiness of an optional string field: an absent key and
an empty string are both falsy in `if (company) ...`. -/
def truthy (o : Option String) : Bool := !((o.getD "") == "")

/-- profile.js lines 79-81: `skills.split(',').map(skill => skill.trim())`. -/
def parseSkills (s : String) : List String := (s.splitOn ",").map String.trim

/-- profile.js lines 88-93: the social object is rebuilt from scratch on
every submission, holding exactly the links provided in this request. -/
def buildSocial (inp : ProfileInput) : Social :=
  { youtube := if truthy inp.youtube then inp.youtube else none,
    twitter := if truthy inp.twitter then inp.twitter else none,
    facebook := if truthy inp.facebook then inp.facebook else none,
    linkedin := if truthy inp.linkedin then inp.linkedin else none,
    instagram := if truthy inp.instagram then inp.instagram else none }

/-- profile.js lines 69-107, update branch: `$set: profileFields` applied
to the existing profile.  Each truthy top-level field overwrites, each
absent one is untouched — except `social`, which is always a key of
`profileFields` and therefore always replaced wholesale by the freshly
built object. -/
def applyProfileFields (p : Profile) (inp : ProfileInput) : Profile :=
  { p with
    company := if truthy inp.company then inp.company else p.company,
    website := if truthy inp.website then inp.website else p.website,
    location := if truthy inp.location then inp.location else p.location,
    status := if truthy inp.status then inp.status else p.status,
    skills := if truthy inp.skills then parseSkills (inp.skills.getD "") else p.skills,
    bio := if truthy inp.bio then inp.bio else p.bio,
    githubUsername := if truthy inp.githubUsername then inp.githubUsername else p.githubUsername,
    social := buildSocial inp }

/-- profile.js DELETE `/experience/:exp_id` (lines 245-263): compute
`indexOf` of the entry id over the mapped ids (`-1` when absent) and
splice one element at that index, then save.  No not-found check. -/
def removeExperience (p : Profile) (expId : String) : Profile :=
  let removeIndex := jsIndexOf (p.experience.map ExperienceEntry.id) expId
  { p with experience := spliceRemoveOne p.experience removeIndex }

/-- profile.js DELETE `/education/:exp_id` (lines 329-347): same pattern
as experience removal, over the education list. -/
def removeEducation (p : Profile) (eduId : String) : Profile :=
  let removeIndex := jsIndexOf (p.education.map EducationEntry.id) eduId
  { p with education := spliceRemoveOne p.education removeIndex }

/-- A document of the User collection (models/User via its use in
users.js and auth.js). -/
structure UserRec where
  id : String
  name : String
  email : String
  password : String
  avatar : String
deriving DecidableEq, Repr

/-- `User.findOne({ email })`: first user whose email matches. -/
def findUserByEmail (db : List UserRec) (email : String) : Option UserRec :=
  db.find? (fun u => u.email == email)

/-- auth.js POST `/` (lines 38-87): look the user up by email (500
"Invalid credentials." when none), compare the raw password against the
stored hash with `bcrypt.compare` (the same 500 "Invalid credentials."
when it fails), else sign and return a token embedding the user id.
`compare` abstracts `bcrypt.compare`; the token is modelled by the user
id it embeds. -/
def login (compare : String → String → Bool) (db : List UserRec) (email password : String) :
    Except ErrResponse String :=
  match findUserByEmail db email with
  | none => Except.error ⟨500, "Invalid credentials."⟩
  | some user =>
    if !(compare password user.password) then
      Except.error ⟨500, "Invalid credentials."⟩
    else
      Except.ok user.id

/-- The whole application store: users, profiles, posts. -/
structure AppState where
  users : List UserRec
  profiles : List Profile
  posts : List Post
deriving DecidableEq, Repr

/-- profile.js DELETE `/` (lines 169-182): `findOneAndRemove` the profile
keyed by the requesting user, then the user keyed by id, then answer
`{ msg: 'User deleted.' }`.  Neither removal's outcome is inspected and
posts are untouched. -/
def deleteProfileCascade (st : AppState) (uid : String) :
    AppState × Except ErrResponse String :=
  let st1 : AppState := { st with profiles := removeFirst (fun p => p.user == uid) st.profiles }
  let st2 : AppState := { st1 with users := removeFirst (fun u => u.id == uid) st1.users }
  (st2, Except.ok "User deleted.")

/-- The like-list invariant of claim C1: no user id occurs twice among a
post's likes. -/
def likesNodup (p : Post) : Prop := (p.likes.map Like.user).Nodup

instance (p : Post) : Decidable (likesNodup p) := by
  unfold likesNodup; infer_instance

/-- The post states reachable through the posts.js handlers, starting
from an empty collection.  Failing handler calls leave the store as it
was, so closing under the first projection covers success and failure
alike. -/
inductive ReachablePosts : List Post → Prop
  | init : ReachablePosts []
  | create (db : List Post) (pid uid name avatar text : String) :
      ReachablePosts db → ReachablePosts (createPost db pid uid name avatar text).1
  | like (db : List Post) (pid uid : String) :
      ReachablePosts db → ReachablePosts (likePost db pid uid).1
  | unlike (db : List Post) (pid uid : String) :
      ReachablePosts db → ReachablePosts (unlikePost db pid uid).1
  | comment (db : List Post) (pid cid uid name avatar text : String) :
      ReachablePosts db → ReachablePosts (addComment db pid cid uid name avatar text).1
  | removeC (db : List Post) (pid cid rid : String) :
      ReachablePosts db → ReachablePosts (removeComment db pid cid rid).1
  | delete (db : List Post) (pid rid : String) :
      ReachablePosts db → ReachablePosts (deletePost db pid rid).1

/-! ### Helper lemmas -/

theorem removeFirst_mem {α : Type} {f : α → Bool} {l : List α} {x : α}
    (h : x ∈ removeFirst f l) : x ∈ l := by
  induction l with
  | nil => simp [removeFirst] at h
  | cons a t ih =>
    unfold removeFirst at h
    by_cases ha : f a = true
    · rw [if_pos ha] at h
      exact List.mem_cons_of_mem a h
    · rw [if_neg ha] at h
      rcases List.mem_cons.mp h with rfl | h
      · exact List.mem_cons_self x t
      · exact List.mem_cons_of_mem a (ih h)

theorem savePost_mem {db : List Post} {p q : Post} (h : q ∈ savePost db p) :
    q = p ∨ q ∈ db := by
  unfold savePost at h
  rcases List.mem_map.mp h with ⟨r, hr, hq⟩
  by_cases hc : (r.id == p.id) = true
  · left
    rw [← hq, if_pos hc]
  · right
    rw [← hq, if_neg hc]
    exact hr

theorem spliceRemoveOne_sublist {α : Type} (l : List α) (i : Int) :
    List.Sublist (spliceRemoveOne l i) l := by
  unfold spliceRemoveOne
  set s : Nat := if i < 0 then (l.length + i).toNat else min i.toNat l.length with hs
  have hdrop : List.Sublist (l.drop (s + 1)) (l.drop s) := by
    have h1 : (l.drop s).drop 1 = l.drop (s + 1) := List.drop_drop 1 s l
    rw [← h1]
    exact List.drop_sublist 1 (l.drop s)
  calc List.Sublist (l.take s ++ l.drop (s + 1)) (l.take s ++ l.drop s) :=
        (List.append_sublist_append_left (l.take s)).2 hdrop
    _ = l := List.take_append_drop s l

theorem spliceRemoveOne_neg_one {α : Type} (l : List α) :
    spliceRemoveOne l (-1) = l.dropLast := by
  unfold spliceRemoveOne
  have hneg : ((-1 : Int) < 0) = True := by simp
  simp only [hneg, if_true, reduceIte]
  cases l with
  | nil => simp
  | cons a t =>
    have hstart : (((a :: t).length : Int) + (-1)).toNat = (a :: t).length - 1 := by
      simp [List.length_cons]
    rw [hstart]
    have hlen : (a :: t).length - 1 + 1 = (a :: t).length := by
      simp [List.length_cons]
    rw [hlen, List.drop_length, List.append_nil, List.dropLast_eq_take]

theorem spliceRemoveOne_zero {α : Type} (a : α) (t : List α) :
    spliceRemoveOne (a :: t) 0 = t := by
  simp [spliceRemoveOne]

theorem jsIndexOf_not_mem {α : Type} [BEq α] [LawfulBEq α] {l : List α} {x : α}
    (h : x ∉ l) : jsIndexOf l x = -1 := by
  unfold jsIndexOf
  have : l.findIdx? (fun y => y == x) = none := by
    rw [List.findIdx?_eq_none_iff]
    intro y hy
    simp only [beq_eq_false_iff_ne, ne_eq]
    rintro rfl
    exact h hy
  rw [this]

theorem jsIndexOf_cons_self {α : Type} [BEq α] [LawfulBEq α] (x : α) (l : List α) :
    jsIndexOf (x :: l) x = 0 := by
  simp [jsIndexOf, List.findIdx?]

theorem postFindById_ok_some {db : List Post} {pid : String} {post : Post}
    (h : postFindById db pid = Except.ok (some post)) :
    db.find? (fun p => p.id == pid) = some post := by
  unfold postFindById at h
  by_cases hv : isValidObjectId pid = true
  · rw [if_pos hv] at h
    exact Except.ok.inj h
  · rw [if_neg hv] at h
    exact absurd h (by simp)

theorem postFindById_valid {db : List Post} {pid : String} {post : Post}
    (h : postFindById db pid = Except.ok (some post)) :
    isValidObjectId pid = true := by
  unfold postFindById at h
  by_cases hv : isValidObjectId pid = true
  · exact hv
  · rw [if_neg hv] at h
    exact absurd h (by simp)

theorem find?_map_replace (db : List Post) (post p2 : Post) (pid : String)
    (hfind : db.find? (fun p => p.id == pid) = some post) (hid : p2.id = post.id) :
    (db.map (fun q => if q.id == p2.id then p2 else q)).find? (fun p => p.id == pid) =
      some p2 := by
  have hpid : (post.id == pid) = true := by
    simpa using List.find?_some hfind
  induction db with
  | nil => simp at hfind
  | cons a t ih =>
    rw [List.find?] at hfind
    by_cases ha : (a.id == pid) = true
    · rw [ha] at hfind
      have hap : a = post := Option.some.inj hfind
      subst hap
      have haid : (a.id == p2.id) = true := by
        rw [hid]
        exact beq_self_eq_true a.id
      rw [List.map_cons, if_pos haid, List.find?]
      have : (p2.id == pid) = true := by
        rw [hid]
        exact hpid
      rw [this]
    · rw [Bool.not_eq_true] at ha
      rw [ha] at hfind
      have hat : t.find? (fun p => p.id == pid) = some post := hfind
      have haid : (a.id == p2.id) = false := by
        rw [hid]
        by_contra hcon
        rw [Bool.not_eq_false, beq_iff_eq] at hcon
        rw [show (a.id == pid) = (post.id == pid) by rw [hcon]] at ha
        rw [hpid] at ha
        exact absurd ha (by simp)
      rw [List.map_cons, if_neg (by simp [haid]), List.find?, show (a.id == pid) = false from ha]
      exact ih hat

theorem postFindById_savePost {db : List Post} {pid : String} {post p2 : Post}
    (h : postFindById db pid = Except.ok (some post)) (hid : p2.id = post.id) :
    postFindById (savePost db p2) pid = Except.ok (some p2) := by
  have hv : isValidObjectId pid = true := postFindById_valid h
  have hfind : db.find? (fun p => p.id == pid) = some post := postFindById_ok_some h
  unfold postFindById savePost
  rw [if_pos hv, find?_map_replace db post p2 pid hfind hid]

/-- A well-formed ObjectId used by the concrete witnesses. -/
def oid1 : String := "aaaaaaaaaaaaaaaaaaaaaaaa"

/-! ### Claim theorems -/

/-- C9: `deleteProfileCascade(userId)` always succeeds and reports
deletion, for every state and every userId — in particular when no
Profile exists for the user and when no User record exists at all; it
never produces a NotFoundError. -/
theorem deleteProfileCascade_always_reports_deletion (st : AppState) (uid : String) :
    (deleteProfileCascade st uid).2 = Except.ok "User deleted." := rfl

/-- C10: `getPost(postId)` answers 404 "Post not found." for every
malformed postId, and that response is identical to the one for a
well-formed but absent postId: the two cases are indistinguishable and a
malformed id never surfaces as a generic server error. -/
theorem getPost_malformed_eq_absent (db : List Post) (bad good : String)
    (hbad : isValidObjectId bad = false)
    (hgood : isValidObjectId good = true)
    (habsent : db.find? (fun p => p.id == good) = none) :
    getPost db bad = Except.error ⟨404, "Post not found."⟩ ∧
    getPost db bad = getPost db good := by
  constructor
  · simp [getPost, postFindById, hbad]
  · simp [getPost, postFindById, hbad, hgood, habsent]

/-- Witness for C10 at a concrete store and concrete identifiers. -/
theorem getPost_malformed_eq_absent_w :
    getPost [] "zz" = Except.error ⟨404, "Post not found."⟩ ∧
    getPost [] "zz" = getPost [] oid1 :=
  getPost_malformed_eq_absent [] "zz" oid1 (by decide) (by decide) rfl

/-- C3 (divergence): for a well-formed postId matching no post,
`deletePost` does NOT answer 404: the handler dereferences the null
lookup result before its not-found check, so the catch block answers a
generic 500 "Server error." instead, for every requesterId. -/
theorem deletePost_absent_is_server_error (db : List Post) (pid rid : String)
    (hvalid : isValidObjectId pid = true)
    (habsent : db.find? (fun p => p.id == pid) = none) :
    deletePost db pid rid = (db, Except.error ⟨500, "Server error."⟩) := by
  simp [deletePost, postFindById, hvalid, habsent]

/-- Witness for C3's divergence theorem at a concrete absent id. -/
theorem deletePost_absent_is_server_error_w :
    deletePost [] oid1 "u1" = ([], Except.error ⟨500, "Server error."⟩) :=
  deletePost_absent_is_server_error [] oid1 "u1" (by decide) rfl

/-- C4: for every existing post and every requester other than its
author, `deletePost` answers 401 "Not authorized" (the ForbiddenError)
and leaves the store — hence the post with its likes and comments —
unchanged. -/
theorem deletePost_forbidden_unchanged (db : List Post) (pid rid : String) (post : Post)
    (hfind : postFindById db pid = Except.ok (some post))
    (hne : post.user ≠ rid) :
    deletePost db pid rid = (db, Except.error ⟨401, "Not authorized"⟩) := by
  simp [deletePost, hfind, hne]

/-- Witness for C4 at a concrete post and a concrete non-author. -/
theorem deletePost_forbidden_unchanged_w :
    deletePost [{ id := oid1, user := "u1", name := "n", avatar := "a", text := "t",
                  likes := [], comments := [] }] oid1 "u2" =
      ([{ id := oid1, user := "u1", name := "n", avatar := "a", text := "t",
          likes := [], comments := [] }], Except.error ⟨401, "Not authorized"⟩) :=
  deletePost_forbidden_unchanged
    [{ id := oid1, user := "u1", name := "n", avatar := "a", text := "t",
       likes := [], comments := [] }] oid1 "u2"
    { id := oid1, user := "u1", name := "n", avatar := "a", text := "t",
      likes := [], comments := [] } (by rfl) (by decide)

/-- C2: for every user store, every registered user and every password
rejected by the hash comparison, login with that user's email fails with
exactly the same observable response — status 500, body
`{ msg: "Invalid credentials." }` — as login with an email matching no
user: the caller gets no signal on whether the email exists. -/
theorem login_no_email_leak (compare : String → String → Bool) (db : List UserRec)
    (u : UserRec) (pw otherEmail : String)
    (hu : findUserByEmail db u.email = some u)
    (hwrong : compare pw u.password = false)
    (hnone : findUserByEmail db otherEmail = none) :
    login compare db u.email pw = Except.error ⟨500, "Invalid credentials."⟩ ∧
    login compare db otherEmail pw = Except.error ⟨500, "Invalid credentials."⟩ := by
  constructor
  · simp [login, hu, hwrong]
  · simp [login, hnone]

/-- Witness for C2 with a concrete store, a wrong password and an
unknown email. -/
theorem login_no_email_leak_w :
    login (fun a b => a == b) [{ id := "1", name := "Ann", email := "a@x.com",
                                 password := "hash", avatar := "av" }] "a@x.com" "wrong" =
      Except.error ⟨500, "Invalid credentials."⟩ ∧
    login (fun a b => a == b) [{ id := "1", name := "Ann", email := "a@x.com",
                                 password := "hash", avatar := "av" }] "b@x.com" "wrong" =
      Except.error ⟨500, "Invalid credentials."⟩ :=
  login_no_email_leak (fun a b => a == b)
    [{ id := "1", name := "Ann", email := "a@x.com", password := "hash", avatar := "av" }]
    { id := "1", name := "Ann", email := "a@x.com", password := "hash", avatar := "av" }
    "wrong" "b@x.com" (by rfl) (by rfl) (by rfl)

/-- Concrete profile for the C5 example: a stored Twitter link and a
stored company. -/
def profC5 : Profile :=
  { user := "u1", company := some "Acme", website := none, location := none,
    bio := none, status := some "dev", githubUsername := none, skills := ["js"],
    social := { youtube := none, twitter := some "https://t.co/x", facebook := none,
                linkedin := none, instagram := none },
    experience := [], education := [] }

/-- Concrete update body for the C5 example: only the two required fields
are provided; every social link is omitted. -/
def inputC5 : ProfileInput :=
  { company := none, website := none, location := none, bio := none,
    status := some "dev", githubUsername := none, skills := some "js",
    youtube := none, facebook := none, twitter := none, instagram := none,
    linkedin := none }

/-- C5 (counterexample): an update that omits every social link does NOT
leave the stored Twitter link untouched — the handler always sets a
freshly built `social` object, so the link is wiped to absent. -/
theorem upsertProfile_wipes_omitted_social :
    profC5.social.twitter = some "https://t.co/x" ∧
    inputC5.twitter = none ∧
    (applyProfileFields profC5 inputC5).social.twitter ≠ profC5.social.twitter ∧
    (applyProfileFields profC5 inputC5).social.twitter = none := by
  refine ⟨rfl, rfl, ?_, rfl⟩
  decide

/-- C5 (amended): the update is a sparse patch on the top-level fields —
each of company, website, location, bio and githubUsername is left
untouched when not provided, and the experience and education lists are
never touched — but the `social` sub-document is always replaced
wholesale by the object built from this request alone, so omitted social
links are cleared rather than preserved. -/
theorem upsertProfile_sparse_except_social (p : Profile) (inp : ProfileInput) :
    (truthy inp.company = false → (applyProfileFields p inp).company = p.company) ∧
    (truthy inp.website = false → (applyProfileFields p inp).website = p.website) ∧
    (truthy inp.location = false → (applyProfileFields p inp).location = p.location) ∧
    (truthy inp.bio = false → (applyProfileFields p inp).bio = p.bio) ∧
    (truthy inp.githubUsername = false →
      (applyProfileFields p inp).githubUsername = p.githubUsername) ∧
    (applyProfileFields p inp).experience = p.experience ∧
    (applyProfileFields p inp).education = p.education ∧
    (applyProfileFields p inp).social = buildSocial inp := by
  refine ⟨?_, ?_, ?_, ?_, ?_, rfl, rfl, rfl⟩ <;>
    · intro h
      simp [applyProfileFields, h]

/-- Witness for C5's amended theorem at the concrete profile and input. -/
theorem upsertProfile_sparse_except_social_w :
    (applyProfileFields profC5 inputC5).company = profC5.company ∧
    (applyProfileFields profC5 inputC5).social = buildSocial inputC5 :=
  ⟨(upsertProfile_sparse_except_social profC5 inputC5).1 (by decide),
   (upsertProfile_sparse_except_social profC5 inputC5).2.2.2.2.2.2.2⟩

/-- Concrete two-entry experience list for the C6 example. -/
def expEntry1 : ExperienceEntry :=
  { id := "e1", title := "Dev", company := "Acme", location := none,
    fromDate := "2020-01-01", toDate := none, current := true, description := none }

/-- Second concrete experience entry for the C6 example. -/
def expEntry2 : ExperienceEntry :=
  { id := "e2", title := "Lead", company := "Acme", location := none,
    fromDate := "2021-01-01", toDate := none, current := true, description := none }

/-- Concrete education entry for the C6 example. -/
def eduEntry1 : EducationEntry :=
  { id := "d1", school := "State", degree := "BS", fieldOfStudy := "CS",
    fromDate := "2016-01-01", toDate := none, current := false, description := none }

/-- Second concrete education entry for the C6 example. -/
def eduEntry2 : EducationEntry :=
  { id := "d2", school := "State", degree := "MS", fieldOfStudy := "CS",
    fromDate := "2018-01-01", toDate := none, current := false, description := none }

/-- Concrete profile for the C6 example, with two experience and two
education entries. -/
def profC6 : Profile :=
  { user := "u1", company := none, website := none, location := none,
    bio := none, status := some "dev", githubUsername := none, skills := [],
    social := { youtube := none, twitter := none, facebook := none,
                linkedin := none, instagram := none },
    experience := [expEntry1, expEntry2], education := [eduEntry1, eduEntry2] }

/-- C6 (counterexample): removing an entry id that matches nothing is NOT
a no-op — `indexOf` yields `-1` and `splice(-1, 1)` deletes the LAST
entry of the list, for experience and education alike. -/
theorem removeEntry_absent_not_noop :
    (removeExperience profC6 "zz").experience ≠ profC6.experience ∧
    (removeExperience profC6 "zz").experience = [expEntry1] ∧
    (removeEducation profC6 "zz").education ≠ profC6.education ∧
    (removeEducation profC6 "zz").education = [eduEntry1] := by
  refine ⟨?_, ?_, ?_, ?_⟩ <;> decide

/-- C6 (amended): when no entry carries the requested identifier, the
removal deletes the final entry of the list — the list after the call is
`dropLast` of the list before — so it is a no-op only when the list was
already empty. -/
theorem removeEntry_absent_drops_last (p : Profile) (entryId : String)
    (hx : entryId ∉ p.experience.map ExperienceEntry.id)
    (he : entryId ∉ p.education.map EducationEntry.id) :
    (removeExperience p entryId).experience = p.experience.dropLast ∧
    (removeEducation p entryId).education = p.education.dropLast := by
  constructor
  · show (spliceRemoveOne p.experience (jsIndexOf (p.experience.map ExperienceEntry.id) entryId))
      = p.experience.dropLast
    rw [jsIndexOf_not_mem hx, spliceRemoveOne_neg_one]
  · show (spliceRemoveOne p.education (jsIndexOf (p.education.map EducationEntry.id) entryId))
      = p.education.dropLast
    rw [jsIndexOf_not_mem he, spliceRemoveOne_neg_one]

/-- Witness for C6's amended theorem at the concrete profile. -/
theorem removeEntry_absent_drops_last_w :
    (removeExperience profC6 "zz").experience = profC6.experience.dropLast ∧
    (removeEducation profC6 "zz").education = profC6.education.dropLast :=
  removeEntry_absent_drops_last profC6 "zz" (by decide) (by decide)

/-- First comment of the C7 example, authored by user u7. -/
def commentA : Comment :=
  { id := "c1", user := "u7", name := "n", avatar := "a", text := "first" }

/-- Second comment of the C7 example, also authored by user u7. -/
def commentB : Comment :=
  { id := "c2", user := "u7", name := "n", avatar := "a", text := "second" }

/-- Concrete post for the C7 example: two comments by the same author. -/
def postC7 : Post :=
  { id := oid1, user := "author", name := "n", avatar := "a", text := "t",
    likes := [], comments := [commentA, commentB] }

/-- C7 (divergence): asked to remove comment c2, the handler removes c1
instead — the splice index is `indexOf` of the REQUESTER over the
comments mapped to their author ids, which points at the requester's
first comment, not at the comment the comment_id identified.  The
post is left holding exactly the comment that was supposed to go. -/
theorem removeComment_removes_wrong_comment :
    (removeComment [postC7] oid1 "c2" "u7").2 = Except.ok [commentB] ∧
    (removeComment [postC7] oid1 "c2" "u7").2 ≠ Except.ok [commentA] := by
  constructor
  · rfl
  · intro h
    rw [show (removeComment [postC7] oid1 "c2" "u7").2 = Except.ok [commentB] from rfl] at h
    have hlist : ([commentB] : List Comment) = [commentA] := Except.ok.inj h
    exact absurd hlist (by decide)

/-- C1: every post state reachable through the posts.js handlers keeps
each user at most once in every post's like list — createPost starts
with empty likes, likePost rejects a user already present and otherwise
prepends one entry, unlikePost only removes entries, and no other
handler touches likes. -/
theorem reachable_likes_nodup (db : List Post) (h : ReachablePosts db) :
    ∀ p ∈ db, likesNodup p := by
  induction h with
  | init =>
    intro p hp
    simp at hp
  | create db pid uid name avatar text _ ih =>
    intro p hp
    unfold createPost at hp
    rcases List.mem_append.mp hp with hp | hp
    · exact ih p hp
    · rw [List.mem_singleton] at hp
      subst hp
      simp [likesNodup]
  | like db pid uid _ ih =>
    intro p hp
    cases hfind : postFindById db pid with
    | error e =>
      simp only [likePost, hfind] at hp
      exact ih p hp
    | ok o =>
      cases o with
      | none =>
        simp only [likePost, hfind] at hp
        exact ih p hp
      | some post =>
        have hpostdb : post ∈ db := List.mem_of_find?_eq_some (postFindById_ok_some hfind)
        simp only [likePost, hfind] at hp
        by_cases hlen : (post.likes.filter (fun l => l.user == uid)).length > 0
        · rw [if_pos hlen] at hp
          exact ih p hp
        · rw [if_neg hlen] at hp
          rcases savePost_mem hp with rfl | hp
          · have hfil : post.likes.filter (fun l => l.user == uid) = [] :=
              List.length_eq_zero.mp (Nat.eq_zero_of_not_pos hlen)
            have hnotmem : uid ∉ post.likes.map Like.user := by
              intro hmem
              rcases List.mem_map.mp hmem with ⟨l, hl, hlu⟩
              have hne := List.filter_eq_nil_iff.mp hfil l hl
              apply hne
              simp [hlu]
            show likesNodup { post with likes := { user := uid } :: post.likes }
            unfold likesNodup
            simp only [List.map_cons]
            exact List.nodup_cons.mpr ⟨hnotmem, ih post hpostdb⟩
          · exact ih p hp
  | unlike db pid uid _ ih =>
    intro p hp
    cases hfind : postFindById db pid with
    | error e =>
      simp only [unlikePost, hfind] at hp
      exact ih p hp
    | ok o =>
      cases o with
      | none =>
        simp only [unlikePost, hfind] at hp
        exact ih p hp
      | some post =>
        have hpostdb : post ∈ db := List.mem_of_find?_eq_some (postFindById_ok_some hfind)
        simp only [unlikePost, hfind] at hp
        by_cases hlen : ((post.likes.filter (fun l => l.user == uid)).length == 0) = true
        · rw [if_pos hlen] at hp
          exact ih p hp
        · rw [if_neg hlen] at hp
          rcases savePost_mem hp with rfl | hp
          · unfold likesNodup
            have hsub := (spliceRemoveOne_sublist post.likes
              (jsIndexOf (post.likes.map Like.user) uid)).map Like.user
            exact (ih post hpostdb).sublist hsub
          · exact ih p hp
  | comment db pid cid uid name avatar text _ ih =>
    intro p hp
    cases hfind : postFindById db pid with
    | error e =>
      simp only [addComment, hfind] at hp
      exact ih p hp
    | ok o =>
      cases o with
      | none =>
        simp only [addComment, hfind] at hp
        exact ih p hp
      | some post =>
        have hpostdb : post ∈ db := List.mem_of_find?_eq_some (postFindById_ok_some hfind)
        simp only [addComment, hfind] at hp
        rcases savePost_mem hp with rfl | hp
        · exact ih post hpostdb
        · exact ih p hp
  | removeC db pid cid rid _ ih =>
    intro p hp
    cases hfind : postFindById db pid with
    | error e =>
      simp only [removeComment, hfind] at hp
      exact ih p hp
    | ok o =>
      cases o with
      | none =>
        simp only [removeComment, hfind] at hp
        exact ih p hp
      | some post =>
        have hpostdb : post ∈ db := List.mem_of_find?_eq_some (postFindById_ok_some hfind)
        simp only [removeComment, hfind] at hp
        cases hfc : post.comments.find? (fun c => c.id == cid) with
        | none =>
          simp only [hfc] at hp
          exact ih p hp
        | some comment =>
          simp only [hfc] at hp
          by_cases hu : (comment.user != rid) = true
          · rw [if_pos hu] at hp
            exact ih p hp
          · rw [if_neg hu] at hp
            rcases savePost_mem hp with rfl | hp
            · exact ih post hpostdb
            · exact ih p hp
  | delete db pid rid _ ih =>
    intro p hp
    cases hfind : postFindById db pid with
    | error e =>
      simp only [deletePost, hfind] at hp
      exact ih p hp
    | ok o =>
      cases o with
      | none =>
        simp only [deletePost, hfind] at hp
        exact ih p hp
      | some post =>
        simp only [deletePost, hfind] at hp
        by_cases hu : (post.user != rid) = true
        · rw [if_pos hu] at hp
          exact ih p hp
        · rw [if_neg hu] at hp
          exact ih p (removeFirst_mem hp)

/-- Witness for C1: the store reached by creating a post and liking it
once satisfies the invariant on its single post. -/
theorem reachable_likes_nodup_w :
    likesNodup { id := oid1, user := "u1", name := "n", avatar := "a", text := "hi",
                 likes := [{ user := "u1" }], comments := [] } :=
  reachable_likes_nodup _
    (ReachablePosts.like _ oid1 "u1"
      (ReachablePosts.create [] oid1 "u1" "n" "a" "hi" ReachablePosts.init))
    _ (by decide)

/-- C8: for every store and every post whose like list does not contain
userId, likePost followed by unlikePost answers with exactly the
original like list — the prepended entry sits at index 0, `indexOf`
finds it there, and `splice(0, 1)` removes precisely it. -/
theorem like_unlike_roundtrip (db : List Post) (pid uid : String) (post : Post)
    (hfind : postFindById db pid = Except.ok (some post))
    (hnot : uid ∉ post.likes.map Like.user) :
    (unlikePost (likePost db pid uid).1 pid uid).2 = Except.ok post.likes := by
  have hfil : post.likes.filter (fun l => l.user == uid) = [] := by
    rw [List.filter_eq_nil_iff]
    intro l hl hbe
    apply hnot
    exact List.mem_map.mpr ⟨l, hl, by simpa using hbe⟩
  have hlike : (likePost db pid uid).1 =
      savePost db { post with likes := { user := uid } :: post.likes } := by
    simp [likePost, hfind, hfil]
  have hnewfind : postFindById (savePost db { post with likes := { user := uid } :: post.likes })
      pid = Except.ok (some { post with likes := { user := uid } :: post.likes }) :=
    postFindById_savePost hfind rfl
  rw [hlike]
  simp only [unlikePost, hnewfind]
  have hfilnew : (({ post with likes := { user := uid } :: post.likes } : Post).likes.filter
      (fun l => l.user == uid)) = { user := uid } :: post.likes.filter (fun l => l.user == uid) := by
    simp
  rw [hfilnew, hfil]
  simp only [List.length_cons, List.length_nil]
  have hidx : jsIndexOf (({ post with likes := { user := uid } :: post.likes } : Post).likes.map
      Like.user) uid = 0 := by
    simp only [List.map_cons]
    exact jsIndexOf_cons_self uid (post.likes.map Like.user)
  rw [hidx]
  simp [spliceRemoveOne_zero]

/-- Witness for C8 at a concrete store: a post already liked by u9 is
liked and then unliked by u2, and the like list returns to its original
content. -/
theorem like_unlike_roundtrip_w :
    (unlikePost (likePost [{ id := oid1, user := "u1", name := "n", avatar := "a",
                             text := "t", likes := [{ user := "u9" }], comments := [] }]
        oid1 "u2").1 oid1 "u2").2 = Except.ok [{ user := "u9" }] :=
  like_unlike_roundtrip
    [{ id := oid1, user := "u1", name := "n", avatar := "a", text := "t",
       likes := [{ user := "u9" }], comments := [] }] oid1 "u2"
    { id := oid1, user := "u1", name := "n", avatar := "a", text := "t",
      likes := [{ user := "u9" }], comments := [] } (by rfl) (by decide)
